import Mathlib

/-!
# demo-metrics-app: request counting and metrics exposition

`src/index.js` wires three Express routes to a metrics registry:

* `GET /`        increments `http_requests_total{method="GET",status="200"}` and answers `OK`;
* `GET /error`   increments `http_requests_total{method="GET",status="500"}` and answers `ERROR`
                 with status 500;
* `GET /metrics` answers with the registry's text exposition.

The route handlers and the startup sequence are embedded from `src/index.js`.  The metrics
library (registry, counter, default metrics) and the HTTP response object are third-party
code that is not part of the repository's sources; they are modelled from the specification,
and every such definition says so in its doc comment.

Counter values are natural numbers: the specification describes an increment as adding 1 to a
numeric value, and nothing in the repository bounds it.
-/

namespace DemoMetrics

/-! ## Metrics library -/

/-- Errors of the metrics library named by the specification (section 7). -/
inductive MetricError where
  | DuplicateNameError
  | InvalidLabelError
  deriving DecidableEq, Repr

/-- Kind of a metric as printed on its `# TYPE` line (specification, section 6). -/
inductive MetricType where
  | counter
  | gauge
  deriving DecidableEq, Repr

/-- Text of a metric kind on the `# TYPE` line. -/
def MetricType.text : MetricType → String
  | .counter => "counter"
  | .gauge => "gauge"

/-- A labels argument: a mapping from label names to label values, in the order written. -/
abbrev Labels := List (String × String)

/-- A label-value tuple: the values of the declared label names, in declaration order. -/
abbrev LabelTuple := List String

/-- Modelled from the spec: the class `client.Counter` of the metrics library, which is not
among the sources.  A Counter metric (section 3) has a name, a help string, the label names
declared at creation and a sparse mapping from label-value tuples to values, kept here in
order of first increment. -/
structure Counter where
  name : String
  help : String
  labelNames : List String
  hashMap : List (LabelTuple × Nat)
  deriving DecidableEq, Repr

/-- Modelled from the spec: the label check of `client.Counter`, which is not among the
sources.  `InvalidLabelError` (section 4.2) is raised when the labels contain a key that was
not declared or omit a declared key. -/
def validLabels (labelNames : List String) (labels : Labels) : Bool :=
  labels.all (fun kv => decide (kv.1 ∈ labelNames)) &&
    labelNames.all (fun n => decide (n ∈ labels.map Prod.fst))

/-- Modelled from the spec: the label-value tuple selected by a labels argument (section 3),
the values of the declared label names in declaration order. -/
def tupleOf (labelNames : List String) (labels : Labels) : LabelTuple :=
  labelNames.map (fun n => (labels.lookup n).getD "")

/-- Modelled from the spec: the update of the mapping by `client.Counter`, which is not among
the sources: "increments the matching label-tuple's value by 1, creating the tuple at value 1
if absent" (section 4.2). -/
def bump : List (LabelTuple × Nat) → LabelTuple → List (LabelTuple × Nat)
  | [], t => [(t, 1)]
  | (k, v) :: rest, t => if k = t then (k, v + 1) :: rest else (k, v) :: bump rest t

/-- Current value of a label-value tuple, `none` when the tuple was never created. -/
def valueOf : List (LabelTuple × Nat) → LabelTuple → Option Nat
  | [], _ => none
  | (k, v) :: rest, t => if k = t then some v else valueOf rest t

/-- Modelled from the spec: `increment(labels)` of the Counter (section 4.2), the method
`inc` of `client.Counter`, which is not among the sources.  The labels are validated before
anything is changed, so a failing call leaves the counter as it was. -/
def Counter.inc (c : Counter) (labels : Labels) : Except MetricError Counter :=
  if validLabels c.labelNames labels then
    .ok { c with hashMap := bump c.hashMap (tupleOf c.labelNames labels) }
  else
    .error .InvalidLabelError

/-- Modelled from the spec: a reading of the host runtime at one instant, with the quantities
the default metrics are sourced from (section 4.1: CPU time, resident memory, event-loop lag,
open handles).  The host runtime is outside the sources. -/
structure HostRuntime where
  cpuTime : Nat
  residentMemory : Nat
  eventLoopLag : Nat
  openHandles : Nat
  deriving DecidableEq, Repr

/-- The quantity of the host runtime a default metric reports. -/
inductive HostSource where
  | cpuTime
  | residentMemory
  | eventLoopLag
  | openHandles
  deriving DecidableEq, Repr

/-- Value of a host quantity in a reading. -/
def HostRuntime.read (h : HostRuntime) : HostSource → Nat
  | .cpuTime => h.cpuTime
  | .residentMemory => h.residentMemory
  | .eventLoopLag => h.eventLoopLag
  | .openHandles => h.openHandles

/-- Modelled from the spec: one metric of the default bundle of the metrics library, which is
not among the sources (section 4.1): a process-level gauge or counter without labels whose
value is sourced from the host runtime. -/
structure DefaultMetric where
  name : String
  help : String
  type : MetricType
  source : HostSource
  deriving DecidableEq, Repr

/-- Modelled from the spec: a metric object held by a registry (section 2): a counter, or a
default process metric. -/
inductive Metric where
  | counter (c : Counter)
  | runtime (d : DefaultMetric)
  deriving DecidableEq, Repr

/-- Name of a metric. -/
def Metric.name : Metric → String
  | .counter c => c.name
  | .runtime d => d.name

/-- Help string of a metric. -/
def Metric.help : Metric → String
  | .counter c => c.help
  | .runtime d => d.help

/-- Kind of a metric. -/
def Metric.type : Metric → MetricType
  | .counter _ => .counter
  | .runtime d => d.type

/-- Modelled from the spec: one sample of a rendering (section 6): metric name, labels and
value. -/
structure Sample where
  name : String
  labels : Labels
  value : Nat
  deriving DecidableEq, Repr

/-- Modelled from the spec: samples of a counter, one per label-value tuple that exists
(section 3), in order of creation. -/
def Counter.samples (c : Counter) : List Sample :=
  c.hashMap.map (fun kv => ⟨c.name, c.labelNames.zip kv.1, kv.2⟩)

/-- Modelled from the spec: samples of a metric at a reading of the host runtime: those of
a counter, or the one value a default metric takes from the host (section 4.1). -/
def Metric.samples (host : HostRuntime) : Metric → List Sample
  | .counter c => c.samples
  | .runtime d => [⟨d.name, [], host.read d.source⟩]

/-- Modelled from the spec: text of one label, `name="value"` (section 6). -/
def formatLabel (kv : String × String) : String :=
  kv.1 ++ "=\"" ++ kv.2 ++ "\""

/-- Modelled from the spec: a sample line of the exposition of the metrics library, which is
not among the sources: `name{label1="value1",label2="value2"} value` (sections 4.1 and 6). -/
def formatSample (s : Sample) : String :=
  s.name ++ "\x7b" ++ String.intercalate "," (s.labels.map formatLabel) ++ "\x7d " ++
    toString s.value

/-- Modelled from the spec: the block of one metric in the exposition format of the metrics
library, which is not among the sources (section 6): the `# HELP` line, the `# TYPE` line and
one line per sample. -/
def Metric.render (host : HostRuntime) (m : Metric) : List String :=
  ("# HELP " ++ m.name ++ " " ++ m.help) ::
    ("# TYPE " ++ m.name ++ " " ++ m.type.text) ::
      (m.samples host).map formatSample

/-- Modelled from the spec: the class `client.Registry` of the metrics library, which is not
among the sources.  A Registry (section 3) is an ordered collection of metrics, unique by
name, with the media type it declares for its exposition (`register.contentType`). -/
structure Registry where
  contentType : String
  collection : List Metric
  deriving DecidableEq, Repr

/-- Names registered in a registry, in registration order. -/
def Registry.names (r : Registry) : List String :=
  r.collection.map Metric.name

/-- Modelled from the spec: `register(metric)` (section 4.1), the method `registerMetric` of
`client.Registry`, which is not among the sources: adds the metric, or fails with
`DuplicateNameError` when the name is already registered.  The second component is the
registry after the call. -/
def Registry.registerMetric (r : Registry) (m : Metric) :
    Except MetricError Unit × Registry :=
  if m.name ∈ r.names then
    (.error .DuplicateNameError, r)
  else
    (.ok (), { r with collection := r.collection ++ [m] })

/-- Modelled from the spec: `collectDefaultMetrics()` (section 4.1), a function of the
metrics library, which is not among the sources: registers the metrics of the default bundle
one after the other and stops at the first failure. -/
def Registry.collectDefaultMetrics (r : Registry) :
    List DefaultMetric → Except MetricError Unit × Registry
  | [] => (.ok (), r)
  | d :: ds =>
    match r.registerMetric (.runtime d) with
    | (.ok _, r1) => r1.collectDefaultMetrics ds
    | (.error e, r1) => (.error e, r1)

/-- Modelled from the spec: lines of the exposition of a list of metrics, one block per
metric (section 4.1). -/
def renderLines (host : HostRuntime) : List Metric → List String
  | [] => []
  | m :: ms => m.render host ++ renderLines host ms

/-- Samples of the exposition of a list of metrics: the samples behind the lines of
`renderLines`, before they are formatted. -/
def renderSamples (host : HostRuntime) : List Metric → List Sample
  | [] => []
  | m :: ms => m.samples host ++ renderSamples host ms

/-- Modelled from the spec: the final serialised string of a sequence of lines (section 4.1),
each line terminated by a line feed. -/
def unlines : List String → String
  | [] => ""
  | l :: ls => l ++ "\n" ++ unlines ls

/-- Modelled from the spec: `render()` of the registry (section 4.1), the method `metrics` of
`client.Registry`, which is not among the sources: the serialised exposition of all
registered metrics, a pure read of current values.  The values of the default metrics are
read from the host runtime at the time of the call. -/
def Registry.metrics (r : Registry) (host : HostRuntime) : String :=
  unlines (renderLines host r.collection)

/-- Increment of the counter registered under `name`: the metric object is reached through
its registration, the rest of the collection is untouched.  When no counter is registered
under the name the collection stays as it is: the increment of an unregistered object is not
visible through the registry. -/
def incNamed (name : String) (labels : Labels) : List Metric → Except MetricError (List Metric)
  | [] => .ok []
  | .counter c :: ms =>
    if c.name = name then
      match c.inc labels with
      | .ok c1 => .ok (.counter c1 :: ms)
      | .error e => .error e
    else
      match incNamed name labels ms with
      | .ok ms1 => .ok (.counter c :: ms1)
      | .error e => .error e
  | .runtime d :: ms =>
    match incNamed name labels ms with
    | .ok ms1 => .ok (.runtime d :: ms1)
    | .error e => .error e

/-- The counter registered under `name`, when there is one. -/
def findCounter (name : String) : List Metric → Option Counter
  | [] => none
  | .counter c :: ms => if c.name = name then some c else findCounter name ms
  | .runtime _ :: ms => findCounter name ms

/-! ## HTTP response object -/

/-- Modelled from the spec: the response object of the HTTP framework, which is not among
the sources, reduced to what section 6 observes: status, headers, body. -/
structure Response where
  statusCode : Nat
  headers : List (String × String)
  body : String
  deriving DecidableEq, Repr

/-- Modelled from the spec: the response object handed to a handler, before the handler
writes to it: status 200 (section 6, the status of `GET /`, whose handler sets none), no
header, empty body. -/
def Response.fresh : Response := ⟨200, [], ""⟩

/-- Modelled from the spec: effect of `res.status(code)` of the HTTP framework: the status
of the response is `code`. -/
def Response.status (res : Response) (code : Nat) : Response :=
  { res with statusCode := code }

/-- Modelled from the spec: effect of `res.set(field, value)` of the HTTP framework: the
header `field` of the response is `value`. -/
def Response.set (res : Response) (field value : String) : Response :=
  { res with headers := (field, value) :: res.headers.filter (fun kv => kv.1 ≠ field) }

/-- Modelled from the spec: effect of `res.send(body)` of the HTTP framework: the body of
the response is `body`. -/
def Response.send (res : Response) (body : String) : Response :=
  { res with body := body }

/-- Modelled from the spec: effect of `res.end(body)` of the HTTP framework: the body of the
response is `body`. -/
def Response.end (res : Response) (body : String) : Response :=
  { res with body := body }

/-- Modelled from the spec: the answer of the HTTP framework to a request whose handler
throws (section 7): a 500-class response, nothing retried. -/
def Response.uncaught (res : Response) : Response :=
  { res with statusCode := 500, body := "Internal Server Error" }

/-! ## The application (`src/index.js`) -/

/-- What `src/index.js` takes from the metrics library without fixing it itself: the media
type declared by a new registry and the default bundle of the host. -/
structure Library where
  contentType : String
  defaultMetrics : List DefaultMetric
  deriving DecidableEq, Repr

/-- Process-wide state: the registry bound to `register`.  The counter bound to `httpCounter`
is the metric object registered in it under `http_requests_total`. -/
structure AppState where
  register : Registry
  deriving DecidableEq, Repr

/-- Name given to the counter at lines 11-15. -/
def counterName : String := "http_requests_total"

/-- Counter created at lines 11-15: `new client.Counter({ name, help, labelNames })`. -/
def newHttpCounter : Counter :=
  { name := "http_requests_total"
    help := "Total HTTP requests"
    labelNames := ["method", "status"]
    hashMap := [] }

/-- Startup, lines 5-17: `new client.Registry()`, `client.collectDefaultMetrics({ register })`,
`new client.Counter(...)`, `register.registerMetric(httpCounter)`.  An exception thrown at
this point ends the process, so there is a state only when every step succeeds. -/
def startup (lib : Library) : Except MetricError AppState :=
  let register : Registry := ⟨lib.contentType, []⟩
  match register.collectDefaultMetrics lib.defaultMetrics with
  | (.error e, _) => .error e
  | (.ok _, r1) =>
    match r1.registerMetric (.counter newHttpCounter) with
    | (.error e, _) => .error e
    | (.ok _, r2) => .ok ⟨r2⟩

/-- Effect of `httpCounter.inc(labels)` on the process state. -/
def AppState.httpCounterInc (s : AppState) (labels : Labels) : Except MetricError AppState :=
  match incNamed counterName labels s.register.collection with
  | .ok ms => .ok { s with register := { s.register with collection := ms } }
  | .error e => .error e

/-- Handler of `GET /`, lines 20-23. -/
def handleRoot (s : AppState) (res : Response) : AppState × Response :=
  match s.httpCounterInc [("method", "GET"), ("status", "200")] with
  | .ok s1 => (s1, res.send "OK")
  | .error _ => (s, res.uncaught)

/-- Handler of `GET /error`, lines 25-28. -/
def handleError (s : AppState) (res : Response) : AppState × Response :=
  match s.httpCounterInc [("method", "GET"), ("status", "500")] with
  | .ok s1 => (s1, (res.status 500).send "ERROR")
  | .error _ => (s, res.uncaught)

/-- Handler of `GET /metrics`, lines 30-33. -/
def handleMetrics (s : AppState) (host : HostRuntime) (res : Response) : AppState × Response :=
  let res1 := res.set "Content-Type" s.register.contentType
  (s, res1.end (s.register.metrics host))

/-- The requests routed by `src/index.js`. -/
inductive Request where
  | getRoot
  | getError
  | getMetrics
  deriving DecidableEq, Repr

/-- An inbound request together with the reading of the host runtime at the time it is
served. -/
structure Inbound where
  request : Request
  host : HostRuntime
  deriving DecidableEq, Repr

/-- Routing: each request reaches exactly one handler, with a fresh response object. -/
def handle (s : AppState) (e : Inbound) : AppState × Response :=
  match e.request with
  | .getRoot => handleRoot s Response.fresh
  | .getError => handleError s Response.fresh
  | .getMetrics => handleMetrics s e.host Response.fresh

/-- State after serving a sequence of requests one at a time. -/
def run (s : AppState) : List Inbound → AppState
  | [] => s
  | e :: es => run (handle s e).1 es

/-! ## Observations on the rendering -/

/-- Label-value tuple of `{ method: 'GET', status: '200' }`. -/
def tuple200 : LabelTuple := ["GET", "200"]

/-- Label-value tuple of `{ method: 'GET', status: '500' }`. -/
def tuple500 : LabelTuple := ["GET", "500"]

/-- Labels `{method="GET",status="200"}` of a rendered sample. -/
def labels200 : Labels := [("method", "GET"), ("status", "200")]

/-- Labels `{method="GET",status="500"}` of a rendered sample. -/
def labels500 : Labels := [("method", "GET"), ("status", "500")]

/-- Value rendered for a metric name and labels: the value of the first sample of the
rendering with that name and those labels, `none` when the rendering has no such sample. -/
def renderedValue (samples : List Sample) (name : String) (labels : Labels) : Option Nat :=
  (samples.find? (fun x => decide (x.name = name ∧ x.labels = labels))).map Sample.value

/-- Value rendered by `GET /metrics` for `http_requests_total` with the given labels. -/
def AppState.rendered (s : AppState) (host : HostRuntime) (labels : Labels) : Option Nat :=
  renderedValue (renderSamples host s.register.collection) counterName labels

/-- Lines of the body of `GET /metrics`. -/
def AppState.lines (s : AppState) (host : HostRuntime) : List String :=
  renderLines host s.register.collection

/-- Number of requests of a kind in a sequence. -/
def countReq (r : Request) (es : List Inbound) : Nat :=
  es.countP (fun e => decide (e.request = r))

/-- A default bundle with one metric for each quantity named by the specification. -/
def sampleLibrary : Library :=
  { contentType := "text/plain; version=0.0.4; charset=utf-8"
    defaultMetrics :=
      [ ⟨"process_cpu_seconds_total", "Total user and system CPU time spent in seconds.",
          .counter, .cpuTime⟩,
        ⟨"process_resident_memory_bytes", "Resident memory size in bytes.",
          .gauge, .residentMemory⟩,
        ⟨"nodejs_eventloop_lag_seconds", "Lag of event loop in seconds.",
          .gauge, .eventLoopLag⟩,
        ⟨"nodejs_active_handles_total", "Total number of active handles.",
          .gauge, .openHandles⟩ ] }

/-- A reading of the host runtime. -/
def hostA : HostRuntime := ⟨12, 52428800, 3, 4⟩

/-- A later reading of the host runtime. -/
def hostB : HostRuntime := ⟨13, 52432896, 2, 5⟩

/-! ## Definitions used to state the results -/

/-- Names of the metrics of a default bundle. -/
def bundleNames (ds : List DefaultMetric) : List String :=
  ds.map DefaultMetric.name

/-- The state of a started process whose counter holds the mapping `hm`. -/
def stateWith (lib : Library) (hm : List (LabelTuple × Nat)) : AppState :=
  ⟨⟨lib.contentType,
    lib.defaultMetrics.map Metric.runtime ++ [Metric.counter { newHttpCounter with hashMap := hm }]⟩⟩

/-- Label-value tuple incremented by a request, if any. -/
def Request.tuple : Request → Option LabelTuple
  | .getRoot => some tuple200
  | .getError => some tuple500
  | .getMetrics => none

/-- Mapping of the counter after a request. -/
def effect (hm : List (LabelTuple × Nat)) (r : Request) : List (LabelTuple × Nat) :=
  match r.tuple with
  | some t => bump hm t
  | none => hm

/-- Mapping of the counter after a sequence of requests. -/
def effects (hm : List (LabelTuple × Nat)) : List Inbound → List (LabelTuple × Nat)
  | [] => hm
  | e :: es => effects (effect hm e.request) es

/-- The value a tuple has after `n` further increments. -/
def addCount (o : Option Nat) (n : Nat) : Option Nat :=
  if n = 0 then o else some (o.getD 0 + n)

/-- Number of requests in a sequence that increment a tuple. -/
def countTuple (t : LabelTuple) (es : List Inbound) : Nat :=
  es.countP (fun e => decide (e.request.tuple = some t))

/-- Text of the sample line of `http_requests_total{method="GET",status="200"}`. -/
def line200 (v : Nat) : String :=
  "http_requests_total\x7bmethod=\"GET\",status=\"200\"\x7d " ++ toString v

/-- Text of the sample line of `http_requests_total{method="GET",status="500"}`. -/
def line500 (v : Nat) : String :=
  "http_requests_total\x7bmethod=\"GET\",status=\"500\"\x7d " ++ toString v

/-- The counter of a started process holding the mapping `hm`. -/
def counterWith (hm : List (LabelTuple × Nat)) : Counter :=
  { newHttpCounter with hashMap := hm }

/-- Value of a label-value tuple of the counter bound to `httpCounter`. -/
def AppState.httpValue (s : AppState) (t : LabelTuple) : Option Nat :=
  (findCounter counterName s.register.collection).bind (fun c => valueOf c.hashMap t)

/-- The counter bound to `httpCounter` is registered with the label names of lines 11-15. -/
abbrev AppState.CounterDeclared (s : AppState) : Prop :=
  (findCounter counterName s.register.collection).map Counter.labelNames =
    some ["method", "status"]

/-- Value of a tuple after `n` increments from nothing: absent for `n = 0`, else `n`. -/
def countValue (n : Nat) : Option Nat :=
  if n = 0 then none else some n

/-- A sequence of `n` requests to one route, served at the reading `hostA`. -/
def requests (r : Request) (n : Nat) : List Inbound :=
  List.replicate n ⟨r, hostA⟩

/-- The requests of the scenario of C3, the two routes mixed. -/
def scenario : List Inbound :=
  [⟨.getRoot, hostA⟩, ⟨.getError, hostA⟩, ⟨.getRoot, hostB⟩, ⟨.getRoot, hostA⟩]

/-- The block of the counter in the body of a started process. -/
def counterBlock (hm : List (LabelTuple × Nat)) : List String :=
  "# HELP http_requests_total Total HTTP requests" ::
    "# TYPE http_requests_total counter" :: (counterWith hm).samples.map formatSample

/-- Samples rendered by `GET /metrics` for `http_requests_total` with the given labels. -/
def AppState.samplesFor (s : AppState) (host : HostRuntime) (labels : Labels) : List Sample :=
  (renderSamples host s.register.collection).filter
    (fun x => decide (x.name = counterName ∧ x.labels = labels))

/-- The samples of `http_requests_total` with given labels that stand for a value: none when
there is no value, else one. -/
def sampleList (labels : Labels) : Option Nat → List Sample
  | none => []
  | some v => [⟨counterName, labels, v⟩]

/-! ## Lemmas on the label-tuple mapping -/

/-- Value of every tuple after an increment. -/
theorem valueOf_bump (m : List (LabelTuple × Nat)) (t u : LabelTuple) :
    valueOf (bump m t) u = if u = t then some ((valueOf m t).getD 0 + 1) else valueOf m u := by
  induction m with
  | nil =>
    by_cases h : u = t
    · simp [bump, valueOf, h]
    · have h2 : ¬ t = u := fun e => h e.symm
      simp [bump, valueOf, h, h2]
  | cons kv rest ih =>
    obtain ⟨k, v⟩ := kv
    by_cases hk : k = t
    · by_cases h : u = t
      · simp [bump, valueOf, hk, h]
      · have h2 : ¬ t = u := fun e => h e.symm
        simp [bump, valueOf, hk, h, h2]
    · by_cases h : u = t
      · subst h
        simp [bump, valueOf, hk, ih]
      · by_cases hku : k = u
        · simp [bump, valueOf, hk, h, hku]
        · simp [bump, valueOf, hk, h, hku, ih]

/-- A property of all keys is kept by an increment with a key that has it. -/
theorem keys_bump (m : List (LabelTuple × Nat)) (t : LabelTuple) (P : LabelTuple → Prop)
    (hm : ∀ kv ∈ m, P kv.1) (ht : P t) : ∀ kv ∈ bump m t, P kv.1 := by
  induction m with
  | nil => intro kv h; simp [bump] at h; subst h; exact ht
  | cons kv rest ih =>
    obtain ⟨k, v⟩ := kv
    intro x hx
    by_cases hk : k = t
    · simp [bump, hk] at hx
      rcases hx with rfl | hx
      · exact ht
      · exact hm x (List.mem_cons_of_mem _ hx)
    · simp [bump, hk] at hx
      rcases hx with rfl | hx
      · exact hm (k, v) (List.mem_cons_self _ _)
      · exact ih (fun y hy => hm y (List.mem_cons_of_mem _ hy)) x hx

/-- A tuple with a value is an entry of the mapping. -/
theorem mem_of_valueOf (m : List (LabelTuple × Nat)) (t : LabelTuple) (v : Nat)
    (h : valueOf m t = some v) : (t, v) ∈ m := by
  induction m with
  | nil => simp [valueOf] at h
  | cons kv rest ih =>
    obtain ⟨k, w⟩ := kv
    by_cases hk : k = t
    · simp [valueOf, hk] at h
      subst hk; subst h
      exact List.mem_cons_self _ _
    · simp [valueOf, hk] at h
      exact List.mem_cons_of_mem _ (ih h)

/-! ## Startup -/

/-- Registering the default bundle succeeds when its names are distinct and new. -/
theorem collectDefaultMetrics_ok (ds : List DefaultMetric) :
    ∀ r : Registry, (bundleNames ds).Nodup → (∀ n ∈ bundleNames ds, n ∉ r.names) →
      r.collectDefaultMetrics ds =
        (.ok (), { r with collection := r.collection ++ ds.map Metric.runtime }) := by
  induction ds with
  | nil => intro r _ _; simp [Registry.collectDefaultMetrics]
  | cons d ds ih =>
    intro r hnd hnew
    have hd : d.name ∉ r.names := hnew d.name (by simp [bundleNames])
    simp only [bundleNames, List.map_cons, List.nodup_cons] at hnd
    have hstep : r.registerMetric (.runtime d) =
        (.ok (), { r with collection := r.collection ++ [Metric.runtime d] }) := by
      simp [Registry.registerMetric, Metric.name, hd]
    rw [Registry.collectDefaultMetrics, hstep]
    simp only
    rw [ih _ hnd.2]
    · simp
    · intro n hn
      simp only [Registry.names, List.map_append, List.map_cons, List.map_nil, Metric.name,
        List.mem_append, List.mem_singleton, not_or]
      refine ⟨hnew n (by simp [bundleNames] at hn ⊢; exact Or.inr hn), ?_⟩
      intro hnd2
      subst hnd2
      exact hnd.1 hn

/-- A successful registration of the default bundle had distinct, new names. -/
theorem collectDefaultMetrics_names (ds : List DefaultMetric) :
    ∀ r r1 : Registry, r.collectDefaultMetrics ds = (.ok (), r1) →
      (bundleNames ds).Nodup ∧ (∀ n ∈ bundleNames ds, n ∉ r.names) := by
  induction ds with
  | nil => intro r r1 _; simp [bundleNames]
  | cons d ds ih =>
    intro r r1 h
    rw [Registry.collectDefaultMetrics] at h
    by_cases hd : d.name ∈ r.names
    · simp [Registry.registerMetric, Metric.name, hd] at h
    · have hstep : r.registerMetric (.runtime d) =
          (.ok (), { r with collection := r.collection ++ [Metric.runtime d] }) := by
        simp [Registry.registerMetric, Metric.name, hd]
      rw [hstep] at h
      simp only at h
      obtain ⟨hnd, hnew⟩ := ih _ _ h
      have hnew2 : ∀ n ∈ bundleNames ds, n ∉ r.names ∧ n ≠ d.name := by
        intro n hn
        have := hnew n hn
        simpa [Registry.names, Metric.name] using this
      refine ⟨?_, ?_⟩
      · simp only [bundleNames, List.map_cons, List.nodup_cons]
        exact ⟨fun hmem => (hnew2 d.name hmem).2 rfl, hnd⟩
      · intro n hn
        simp only [bundleNames, List.map_cons, List.mem_cons] at hn
        rcases hn with rfl | hn
        · exact hd
        · exact (hnew2 n hn).1

/-- The registry rejects a bundle with a repeated or known name. -/
theorem collectDefaultMetrics_cases (ds : List DefaultMetric) (r : Registry) :
    (∃ r1, r.collectDefaultMetrics ds = (.ok (), r1)) ∨
      (∃ e r1, r.collectDefaultMetrics ds = (.error e, r1)) := by
  rcases h : r.collectDefaultMetrics ds with ⟨res, r1⟩
  cases res with
  | ok u => exact Or.inl ⟨r1, rfl⟩
  | error e => exact Or.inr ⟨e, r1, rfl⟩

/-- Startup succeeds exactly when the default bundle has distinct names other than the
counter's, and then yields the registry of the bundle followed by the empty counter. -/
theorem startup_eq_ok (lib : Library) (s0 : AppState) :
    startup lib = .ok s0 ↔
      ((bundleNames lib.defaultMetrics).Nodup ∧ counterName ∉ bundleNames lib.defaultMetrics) ∧
        s0 = stateWith lib [] := by
  constructor
  · intro h
    unfold startup at h
    simp only at h
    rcases collectDefaultMetrics_cases lib.defaultMetrics ⟨lib.contentType, []⟩ with
      ⟨r1, h1⟩ | ⟨e, r1, h1⟩
    · obtain ⟨hnd, hnew⟩ := collectDefaultMetrics_names _ _ _ h1
      have h2 := collectDefaultMetrics_ok lib.defaultMetrics ⟨lib.contentType, []⟩ hnd hnew
      rw [h2] at h
      simp only [List.nil_append] at h
      by_cases hc : counterName ∈ bundleNames lib.defaultMetrics
      · exfalso
        have : (Metric.counter newHttpCounter).name ∈
            (Registry.mk lib.contentType (lib.defaultMetrics.map Metric.runtime)).names := by
          simpa [Registry.names, Metric.name, newHttpCounter, counterName, bundleNames,
            Function.comp_def] using hc
        simp [Registry.registerMetric, this] at h
      · have : (Metric.counter newHttpCounter).name ∉
            (Registry.mk lib.contentType (lib.defaultMetrics.map Metric.runtime)).names := by
          simpa [Registry.names, Metric.name, newHttpCounter, counterName, bundleNames,
            Function.comp_def] using hc
        simp only [Registry.registerMetric, this, if_false] at h
        refine ⟨⟨hnd, hc⟩, ?_⟩
        injection h with h
        rw [← h]
        rfl
    · rw [h1] at h
      simp at h
  · rintro ⟨⟨hnd, hc⟩, rfl⟩
    unfold startup
    simp only
    have h2 := collectDefaultMetrics_ok lib.defaultMetrics ⟨lib.contentType, []⟩ hnd
      (by intro n _; simp [Registry.names])
    rw [h2]
    simp only [List.nil_append]
    have : (Metric.counter newHttpCounter).name ∉
        (Registry.mk lib.contentType (lib.defaultMetrics.map Metric.runtime)).names := by
      simpa [Registry.names, Metric.name, newHttpCounter, counterName, bundleNames,
        Function.comp_def] using hc
    simp only [Registry.registerMetric, this, if_false]
    rfl

/-! ## Requests on a started process -/

/-- An increment passes over the default metrics and reaches the counter behind them. -/
theorem incNamed_bundle (labels : Labels) (c : Counter) (hc : c.name = counterName)
    (ds : List DefaultMetric) :
    incNamed counterName labels (ds.map Metric.runtime ++ [Metric.counter c]) =
      match c.inc labels with
      | .ok c1 => .ok (ds.map Metric.runtime ++ [Metric.counter c1])
      | .error e => .error e := by
  induction ds with
  | nil =>
    cases hinc : c.inc labels <;> simp [incNamed, hc, hinc]
  | cons d ds ih =>
    cases hinc : c.inc labels <;> rw [hinc] at ih <;>
      simp only [List.map_cons, List.cons_append, incNamed, List.append_eq, ih]

/-- Serving `GET /` on a started process. -/
theorem handleRoot_stateWith (lib : Library) (hm : List (LabelTuple × Nat)) (res : Response) :
    handleRoot (stateWith lib hm) res = (stateWith lib (bump hm tuple200), res.send "OK") := by
  unfold handleRoot AppState.httpCounterInc stateWith
  simp only
  rw [incNamed_bundle _ _ rfl]
  rfl

/-- Serving `GET /error` on a started process. -/
theorem handleError_stateWith (lib : Library) (hm : List (LabelTuple × Nat)) (res : Response) :
    handleError (stateWith lib hm) res =
      (stateWith lib (bump hm tuple500), (res.status 500).send "ERROR") := by
  unfold handleError AppState.httpCounterInc stateWith
  simp only
  rw [incNamed_bundle _ _ rfl]
  rfl

/-- State after one request on a started process. -/
theorem handle_stateWith (lib : Library) (hm : List (LabelTuple × Nat)) (e : Inbound) :
    (handle (stateWith lib hm) e).1 = stateWith lib (effect hm e.request) := by
  unfold handle
  cases h : e.request with
  | getRoot => simp only [handleRoot_stateWith]; rfl
  | getError => simp only [handleError_stateWith]; rfl
  | getMetrics => rfl

/-- State after a sequence of requests on a started process. -/
theorem run_stateWith (lib : Library) (es : List Inbound) :
    ∀ hm, run (stateWith lib hm) es = stateWith lib (effects hm es) := by
  induction es with
  | nil => intro hm; rfl
  | cons e es ih =>
    intro hm
    rw [run, handle_stateWith, ih]
    rfl

/-- Value of every tuple after a sequence of requests. -/
theorem valueOf_effects (es : List Inbound) (t : LabelTuple) :
    ∀ hm, valueOf (effects hm es) t = addCount (valueOf hm t) (countTuple t es) := by
  induction es with
  | nil => intro hm; simp [effects, addCount, countTuple]
  | cons e es ih =>
    intro hm
    rw [effects, ih]
    unfold effect
    cases hr : e.request.tuple with
    | none =>
      simp [countTuple, List.countP_cons, hr]
    | some u =>
      simp only [valueOf_bump]
      by_cases htu : t = u
      · subst htu
        simp only [countTuple, List.countP_cons, hr, decide_True, if_true]
        unfold addCount
        by_cases h0 : List.countP (fun e => decide (e.request.tuple = some t)) es = 0
        · simp [h0]
        · simp [h0]; omega
      · have hne : ¬ (some u = some t) := fun h => htu (Option.some.inj h).symm
        simp [countTuple, List.countP_cons, hr, htu, hne]

/-- Every tuple created by the routes is one of the two the handlers use. -/
theorem keys_effects (es : List Inbound) :
    ∀ hm, (∀ kv ∈ hm, kv.1 = tuple200 ∨ kv.1 = tuple500) →
      ∀ kv ∈ effects hm es, kv.1 = tuple200 ∨ kv.1 = tuple500 := by
  induction es with
  | nil => intro hm h; exact h
  | cons e es ih =>
    intro hm h
    rw [effects]
    apply ih
    unfold effect
    cases hr : e.request with
    | getRoot => exact keys_bump hm tuple200 (fun k => k = tuple200 ∨ k = tuple500) h (Or.inl rfl)
    | getError => exact keys_bump hm tuple500 (fun k => k = tuple200 ∨ k = tuple500) h (Or.inr rfl)
    | getMetrics => exact h

/-- Requests that increment the tuple of `GET /` are the requests to `/`. -/
theorem countTuple_200 (es : List Inbound) : countTuple tuple200 es = countReq .getRoot es := by
  unfold countTuple countReq
  congr 1
  funext e
  cases e.request <;> decide

/-- Requests that increment the tuple of `GET /error` are the requests to `/error`. -/
theorem countTuple_500 (es : List Inbound) : countTuple tuple500 es = countReq .getError es := by
  unfold countTuple countReq
  congr 1
  funext e
  cases e.request <;> decide

/-! ## Rendering of a started process -/

/-- The formatted sample of the tuple of `GET /`. -/
theorem formatSample_200 (v : Nat) : formatSample ⟨counterName, labels200, v⟩ = line200 v := by
  rfl

/-- The formatted sample of the tuple of `GET /error`. -/
theorem formatSample_500 (v : Nat) : formatSample ⟨counterName, labels500, v⟩ = line500 v := by
  rfl

/-- Samples of a list of metrics, block after block. -/
theorem renderSamples_append (host : HostRuntime) (ms ns : List Metric) :
    renderSamples host (ms ++ ns) = renderSamples host ms ++ renderSamples host ns := by
  induction ms with
  | nil => rfl
  | cons m ms ih => simp [renderSamples, ih]

/-- Lines of a list of metrics, block after block. -/
theorem renderLines_append (host : HostRuntime) (ms ns : List Metric) :
    renderLines host (ms ++ ns) = renderLines host ms ++ renderLines host ns := by
  induction ms with
  | nil => rfl
  | cons m ms ih => simp [renderLines, ih]

/-- Samples of the default metrics carry the names of the bundle. -/
theorem renderSamples_bundle_name (host : HostRuntime) (ds : List DefaultMetric) :
    ∀ x ∈ renderSamples host (ds.map Metric.runtime), x.name ∈ bundleNames ds := by
  induction ds with
  | nil => intro x hx; simp [renderSamples] at hx
  | cons d ds ih =>
    intro x hx
    simp only [List.map_cons, renderSamples, Metric.samples, List.cons_append, List.nil_append,
      List.mem_cons] at hx
    rcases hx with rfl | hx
    · simp [bundleNames]
    · simp only [bundleNames, List.map_cons, List.mem_cons]
      exact Or.inr (ih x hx)

/-- A search that nothing in the first part satisfies continues in the second part. -/
theorem find_append_of_none {α : Type} (p : α → Bool) (xs ys : List α)
    (h : ∀ x ∈ xs, p x = false) : (xs ++ ys).find? p = ys.find? p := by
  induction xs with
  | nil => rfl
  | cons x xs ih =>
    have hx : p x = false := h x (List.mem_cons_self _ _)
    simp only [List.cons_append, List.find?, hx]
    exact ih (fun y hy => h y (List.mem_cons_of_mem _ hy))

/-- Value rendered for the counter by a mapping whose tuples are those of the two routes. -/
theorem renderedValue_counterWith (hm : List (LabelTuple × Nat))
    (hkeys : ∀ kv ∈ hm, kv.1 = tuple200 ∨ kv.1 = tuple500) (labels : Labels) :
    renderedValue (counterWith hm).samples counterName labels =
      if labels = labels200 then valueOf hm tuple200
      else if labels = labels500 then valueOf hm tuple500 else none := by
  induction hm with
  | nil =>
    simp only [renderedValue, Counter.samples, counterWith, List.map_nil, List.find?,
      Option.map_none', valueOf]
    split_ifs <;> rfl
  | cons kv rest ih =>
    obtain ⟨k, v⟩ := kv
    have ih2 := ih (fun y hy => hkeys y (List.mem_cons_of_mem _ hy))
    have hsamples : (counterWith ((k, v) :: rest)).samples =
        ⟨counterName, ["method", "status"].zip k, v⟩ :: (counterWith rest).samples := rfl
    rw [hsamples]
    unfold renderedValue at ih2 ⊢
    rcases hkeys (k, v) (List.mem_cons_self _ _) with hk | hk
    · simp only at hk
      subst hk
      have hz : ["method", "status"].zip tuple200 = labels200 := rfl
      rw [hz]
      by_cases hl : labels = labels200
      · subst hl
        simp [List.find?, valueOf]
      · have hl2 : ¬ labels200 = labels := fun e => hl e.symm
        have h5 : ¬ tuple200 = tuple500 := by decide
        simp only [List.find?, hl2, and_false, decide_False, ih2, hl, if_false, valueOf, h5]
    · simp only at hk
      subst hk
      have hz : ["method", "status"].zip tuple500 = labels500 := rfl
      rw [hz]
      by_cases hl : labels = labels500
      · subst hl
        have h5 : ¬ labels500 = labels200 := by decide
        simp [List.find?, valueOf, h5]
      · have hl2 : ¬ labels500 = labels := fun e => hl e.symm
        have h5 : ¬ tuple500 = tuple200 := by decide
        simp only [List.find?, hl2, and_false, decide_False, ih2, hl, if_false, valueOf, h5]

/-- Value rendered by a started process for `http_requests_total`. -/
theorem rendered_stateWith (lib : Library)
    (hnew : counterName ∉ bundleNames lib.defaultMetrics) (hm : List (LabelTuple × Nat))
    (hkeys : ∀ kv ∈ hm, kv.1 = tuple200 ∨ kv.1 = tuple500) (host : HostRuntime)
    (labels : Labels) :
    (stateWith lib hm).rendered host labels =
      if labels = labels200 then valueOf hm tuple200
      else if labels = labels500 then valueOf hm tuple500 else none := by
  rw [← renderedValue_counterWith hm hkeys labels]
  unfold AppState.rendered stateWith renderedValue
  simp only
  rw [renderSamples_append, find_append_of_none]
  · simp [renderSamples, Metric.samples, counterWith]
  · intro x hx
    have := renderSamples_bundle_name host lib.defaultMetrics x hx
    have hne : x.name ≠ counterName := fun e => hnew (e ▸ this)
    simp [hne]

/-- Lines of the body of a started process: the blocks of the default metrics, then the block
of the counter. -/
theorem lines_stateWith (lib : Library) (hm : List (LabelTuple × Nat)) (host : HostRuntime) :
    (stateWith lib hm).lines host =
      renderLines host (lib.defaultMetrics.map Metric.runtime) ++
        ("# HELP http_requests_total Total HTTP requests" ::
          "# TYPE http_requests_total counter" ::
            (counterWith hm).samples.map formatSample) := by
  unfold AppState.lines stateWith
  simp only
  rw [renderLines_append]
  simp only [renderLines, List.append_nil]
  rfl

/-- A tuple of the route `GET /` with a value has its sample line in the body. -/
theorem line200_mem (lib : Library) (hm : List (LabelTuple × Nat)) (host : HostRuntime)
    (v : Nat) (h : valueOf hm tuple200 = some v) : line200 v ∈ (stateWith lib hm).lines host := by
  rw [lines_stateWith]
  apply List.mem_append_right
  apply List.mem_cons_of_mem
  apply List.mem_cons_of_mem
  rw [← formatSample_200]
  apply List.mem_map_of_mem
  have := mem_of_valueOf hm tuple200 v h
  unfold Counter.samples counterWith
  exact List.mem_map_of_mem (fun kv : LabelTuple × Nat =>
    (⟨newHttpCounter.name, newHttpCounter.labelNames.zip kv.1, kv.2⟩ : Sample)) this

/-- A tuple of the route `GET /error` with a value has its sample line in the body. -/
theorem line500_mem (lib : Library) (hm : List (LabelTuple × Nat)) (host : HostRuntime)
    (v : Nat) (h : valueOf hm tuple500 = some v) : line500 v ∈ (stateWith lib hm).lines host := by
  rw [lines_stateWith]
  apply List.mem_append_right
  apply List.mem_cons_of_mem
  apply List.mem_cons_of_mem
  rw [← formatSample_500]
  apply List.mem_map_of_mem
  have := mem_of_valueOf hm tuple500 v h
  unfold Counter.samples counterWith
  exact List.mem_map_of_mem (fun kv : LabelTuple × Nat =>
    (⟨newHttpCounter.name, newHttpCounter.labelNames.zip kv.1, kv.2⟩ : Sample)) this

/-! ## Facts that hold in every state -/

/-- A successful increment replaces the mapping of the counter and nothing else. -/
theorem Counter.inc_ok (c c1 : Counter) (labels : Labels) (h : c.inc labels = .ok c1) :
    c1 = { c with hashMap := bump c.hashMap (tupleOf c.labelNames labels) } := by
  unfold Counter.inc at h
  split_ifs at h
  injection h with h
  exact h.symm

/-- After a successful increment through the registry, the registered counter is the
incremented one, or there was none and nothing changed. -/
theorem incNamed_findCounter (name : String) (labels : Labels) (ms : List Metric) :
    ∀ ms1, incNamed name labels ms = .ok ms1 →
      (findCounter name ms = none ∧ ms1 = ms) ∨
        (∃ c c1, findCounter name ms = some c ∧ c.inc labels = .ok c1 ∧
          findCounter name ms1 = some c1) := by
  induction ms with
  | nil =>
    intro ms1 h
    simp only [incNamed] at h
    injection h with h
    exact Or.inl ⟨rfl, h.symm⟩
  | cons m ms ih =>
    intro ms1 h
    cases m with
    | runtime d =>
      simp only [incNamed] at h
      cases hrec : incNamed name labels ms with
      | error e => rw [hrec] at h; simp at h
      | ok ms2 =>
        rw [hrec] at h
        simp only at h
        injection h with h
        subst h
        rcases ih ms2 hrec with ⟨hn, he⟩ | ⟨c, c1, hf, hi, hf1⟩
        · exact Or.inl ⟨by simpa [findCounter] using hn, by rw [he]⟩
        · exact Or.inr ⟨c, c1, by simpa [findCounter] using hf, hi,
            by simpa [findCounter] using hf1⟩
    | counter c0 =>
      simp only [incNamed] at h
      by_cases hname : c0.name = name
      · simp only [hname, if_true] at h
        cases hinc : c0.inc labels with
        | error e => rw [hinc] at h; simp at h
        | ok c1 =>
          rw [hinc] at h
          simp only at h
          injection h with h
          subst h
          have hc1 := Counter.inc_ok c0 c1 labels hinc
          have hn1 : c1.name = name := by rw [hc1]; exact hname
          exact Or.inr ⟨c0, c1, by simp [findCounter, hname], hinc, by simp [findCounter, hn1]⟩
      · simp only [hname, if_false] at h
        cases hrec : incNamed name labels ms with
        | error e => rw [hrec] at h; simp at h
        | ok ms2 =>
          rw [hrec] at h
          simp only at h
          injection h with h
          subst h
          rcases ih ms2 hrec with ⟨hn, he⟩ | ⟨c, c1, hf, hi, hf1⟩
          · exact Or.inl ⟨by simpa [findCounter, hname] using hn, by rw [he]⟩
          · exact Or.inr ⟨c, c1, by simpa [findCounter, hname] using hf, hi,
              by simpa [findCounter, hname] using hf1⟩

/-- An increment through the registry succeeds when the registered counter accepts it. -/
theorem incNamed_ok_of_find (name : String) (labels : Labels) (ms : List Metric) :
    ∀ c c1, findCounter name ms = some c → c.inc labels = .ok c1 →
      ∃ ms1, incNamed name labels ms = .ok ms1 := by
  induction ms with
  | nil => intro c c1 h; simp [findCounter] at h
  | cons m ms ih =>
    intro c c1 hf hi
    cases m with
    | runtime d =>
      simp only [findCounter] at hf
      obtain ⟨ms1, h1⟩ := ih c c1 hf hi
      exact ⟨Metric.runtime d :: ms1, by simp only [incNamed, h1]⟩
    | counter c0 =>
      by_cases hname : c0.name = name
      · simp only [findCounter, hname, if_true] at hf
        injection hf with hf
        subst hf
        exact ⟨Metric.counter c1 :: ms, by simp only [incNamed, hname, if_true, hi]⟩
      · simp only [findCounter, hname, if_false] at hf
        obtain ⟨ms1, h1⟩ := ih c c1 hf hi
        exact ⟨Metric.counter c0 :: ms1, by simp only [incNamed, hname, if_false, h1]⟩

/-- A tuple with a value keeps a value at least as large through `httpCounter.inc`. -/
theorem httpValue_inc (s s1 : AppState) (labels : Labels) (t : LabelTuple) (v : Nat)
    (hinc : s.httpCounterInc labels = .ok s1) (h : s.httpValue t = some v) :
    ∃ w, s1.httpValue t = some w ∧ v ≤ w := by
  unfold AppState.httpCounterInc at hinc
  cases hrec : incNamed counterName labels s.register.collection with
  | error e => rw [hrec] at hinc; simp at hinc
  | ok ms1 =>
    rw [hrec] at hinc
    simp only at hinc
    injection hinc with hinc
    subst hinc
    rcases incNamed_findCounter _ _ _ _ hrec with ⟨hn, _⟩ | ⟨c, c1, hf, hi, hf1⟩
    · simp [AppState.httpValue, hn] at h
    · have hc1 := Counter.inc_ok c c1 labels hi
      simp only [AppState.httpValue, hf, Option.some_bind] at h
      simp only [AppState.httpValue, hf1, Option.some_bind, hc1, valueOf_bump]
      by_cases ht : t = tupleOf c.labelNames labels
      · subst ht
        simp only [if_true, h, Option.getD_some]
        exact ⟨v + 1, rfl, Nat.le_succ v⟩
      · simp only [ht, if_false]
        exact ⟨v, h, Nat.le_refl v⟩

/-- A tuple with a value keeps a value at least as large through any one request. -/
theorem httpValue_handle (s : AppState) (e : Inbound) (t : LabelTuple) (v : Nat)
    (h : s.httpValue t = some v) : ∃ w, (handle s e).1.httpValue t = some w ∧ v ≤ w := by
  unfold handle
  cases e.request with
  | getRoot =>
    simp only [handleRoot]
    cases hinc : s.httpCounterInc [("method", "GET"), ("status", "200")] with
    | error err => exact ⟨v, h, Nat.le_refl v⟩
    | ok s1 => exact httpValue_inc s s1 _ t v hinc h
  | getError =>
    simp only [handleError]
    cases hinc : s.httpCounterInc [("method", "GET"), ("status", "500")] with
    | error err => exact ⟨v, h, Nat.le_refl v⟩
    | ok s1 => exact httpValue_inc s s1 _ t v hinc h
  | getMetrics => exact ⟨v, h, Nat.le_refl v⟩

/-- A tuple with a value keeps a value at least as large through any sequence of requests. -/
theorem httpValue_run (es : List Inbound) (t : LabelTuple) :
    ∀ (s : AppState) (v : Nat), s.httpValue t = some v →
      ∃ w, (run s es).httpValue t = some w ∧ v ≤ w := by
  induction es with
  | nil => intro s v h; exact ⟨v, h, Nat.le_refl v⟩
  | cons e es ih =>
    intro s v h
    obtain ⟨w, hw, hvw⟩ := httpValue_handle s e t v h
    obtain ⟨u, hu, hwu⟩ := ih _ w hw
    exact ⟨u, hu, Nat.le_trans hvw hwu⟩

/-- The labels written in the two handlers are accepted by a counter declared as in
lines 11-15. -/
theorem inc_declared (c : Counter) (hc : c.labelNames = ["method", "status"]) (status : String) :
    ∃ c1, c.inc [("method", "GET"), ("status", status)] = .ok c1 := by
  refine ⟨Counter.mk c.name c.help c.labelNames
    (bump c.hashMap (tupleOf c.labelNames [("method", "GET"), ("status", status)])), ?_⟩
  unfold Counter.inc
  have : validLabels c.labelNames [("method", "GET"), ("status", status)] = true := by
    rw [hc]
    simp [validLabels]
  simp [this]

/-- The counter of a started process is declared as in lines 11-15, whatever it holds. -/
theorem counterDeclared_stateWith (lib : Library) (hm : List (LabelTuple × Nat)) :
    (stateWith lib hm).CounterDeclared := by
  have hfind : findCounter counterName (stateWith lib hm).register.collection =
      some (counterWith hm) := by
    unfold stateWith
    simp only
    induction lib.defaultMetrics with
    | nil => simp [findCounter, counterWith, newHttpCounter, counterName]
    | cons d ds ih => simpa [findCounter] using ih
  unfold AppState.CounterDeclared
  rw [hfind]
  rfl

/-- Every state reached from a successful startup has the counter declared as in
lines 11-15. -/
theorem counterDeclared_reachable (lib : Library) (s0 : AppState) (h : startup lib = .ok s0)
    (es : List Inbound) : (run s0 es).CounterDeclared := by
  obtain ⟨_, rfl⟩ := (startup_eq_ok lib s0).1 h
  rw [run_stateWith]
  exact counterDeclared_stateWith lib _

/-! ## Samples of the counter in the rendering -/

/-- A key of the mapping after an increment was a key before or is the incremented tuple. -/
theorem mem_keys_bump (m : List (LabelTuple × Nat)) (t k : LabelTuple)
    (h : k ∈ (bump m t).map Prod.fst) : k ∈ m.map Prod.fst ∨ k = t := by
  obtain ⟨kv, hkv, rfl⟩ := List.mem_map.1 h
  exact keys_bump m t (fun x => x ∈ m.map Prod.fst ∨ x = t)
    (fun y hy => Or.inl (List.mem_map_of_mem Prod.fst hy)) (Or.inr rfl) kv hkv

/-- An increment keeps the keys of the mapping distinct. -/
theorem nodup_keys_bump (m : List (LabelTuple × Nat)) (t : LabelTuple)
    (h : (m.map Prod.fst).Nodup) : ((bump m t).map Prod.fst).Nodup := by
  induction m with
  | nil => simp [bump]
  | cons kv rest ih =>
    obtain ⟨k, v⟩ := kv
    simp only [List.map_cons, List.nodup_cons] at h
    by_cases hk : k = t
    · simp only [bump, hk, if_true, List.map_cons, List.nodup_cons]
      exact ⟨hk ▸ h.1, h.2⟩
    · simp only [bump, hk, if_false, List.map_cons, List.nodup_cons]
      refine ⟨fun hmem => ?_, ih h.2⟩
      rcases mem_keys_bump rest t k hmem with h1 | h1
      · exact h.1 h1
      · exact hk h1

/-- The routes keep the keys of the mapping distinct. -/
theorem nodup_keys_effects (es : List Inbound) :
    ∀ hm, (hm.map Prod.fst).Nodup → ((effects hm es).map Prod.fst).Nodup := by
  induction es with
  | nil => intro hm h; exact h
  | cons e es ih =>
    intro hm h
    rw [effects]
    apply ih
    unfold effect
    cases e.request.tuple with
    | none => exact h
    | some t => exact nodup_keys_bump hm t h

/-- A tuple that is no key has no value. -/
theorem valueOf_none_of_not_mem (m : List (LabelTuple × Nat)) (t : LabelTuple)
    (h : t ∉ m.map Prod.fst) : valueOf m t = none := by
  induction m with
  | nil => rfl
  | cons kv rest ih =>
    obtain ⟨k, v⟩ := kv
    simp only [List.map_cons, List.mem_cons, not_or] at h
    have hk : ¬ k = t := fun e => h.1 e.symm
    simp only [valueOf, hk, if_false]
    exact ih h.2

/-- Samples of the counter with given labels, for a mapping with distinct keys that are the
tuples of the two routes: one sample for a tuple that has a value, none otherwise. -/
theorem filter_samples_counterWith (hm : List (LabelTuple × Nat))
    (hkeys : ∀ kv ∈ hm, kv.1 = tuple200 ∨ kv.1 = tuple500)
    (hnd : (hm.map Prod.fst).Nodup) (labels : Labels) :
    (counterWith hm).samples.filter (fun x => decide (x.name = counterName ∧ x.labels = labels)) =
      sampleList labels
        (if labels = labels200 then valueOf hm tuple200
          else if labels = labels500 then valueOf hm tuple500 else none) := by
  induction hm with
  | nil =>
    simp only [Counter.samples, counterWith, List.map_nil, List.filter_nil, valueOf]
    split_ifs <;> rfl
  | cons kv rest ih =>
    obtain ⟨k, v⟩ := kv
    simp only [List.map_cons, List.nodup_cons] at hnd
    have ih2 := ih (fun y hy => hkeys y (List.mem_cons_of_mem _ hy)) hnd.2
    have hsamples : (counterWith ((k, v) :: rest)).samples =
        ⟨counterName, ["method", "status"].zip k, v⟩ :: (counterWith rest).samples := rfl
    rw [hsamples]
    have h25 : ¬ tuple200 = tuple500 := by decide
    have h52 : ¬ tuple500 = tuple200 := by decide
    have l52 : ¬ labels500 = labels200 := by decide
    rcases hkeys (k, v) (List.mem_cons_self _ _) with hk | hk
    · simp only at hk
      subst hk
      have hz : ["method", "status"].zip tuple200 = labels200 := rfl
      rw [hz]
      by_cases hl : labels = labels200
      · subst hl
        have hrest := valueOf_none_of_not_mem rest tuple200 hnd.1
        simp only [if_true, hrest] at ih2
        have hp : decide ((⟨counterName, labels200, v⟩ : Sample).name = counterName ∧
            (⟨counterName, labels200, v⟩ : Sample).labels = labels200) = true := by simp
        rw [List.filter_cons, if_pos hp, ih2]
        simp [valueOf, sampleList]
      · have hl2 : ¬ labels200 = labels := fun e => hl e.symm
        simp only [List.filter_cons, hl2, and_false, decide_False, ih2, hl, if_false, valueOf,
          h25, Bool.false_eq_true]
    · simp only at hk
      subst hk
      have hz : ["method", "status"].zip tuple500 = labels500 := rfl
      rw [hz]
      by_cases hl : labels = labels500
      · subst hl
        have hrest := valueOf_none_of_not_mem rest tuple500 hnd.1
        simp only [l52, if_false, if_true, hrest] at ih2
        have hp : decide ((⟨counterName, labels500, v⟩ : Sample).name = counterName ∧
            (⟨counterName, labels500, v⟩ : Sample).labels = labels500) = true := by simp
        rw [List.filter_cons, if_pos hp, ih2]
        simp [valueOf, sampleList, l52]
      · have hl2 : ¬ labels500 = labels := fun e => hl e.symm
        simp only [List.filter_cons, hl2, and_false, decide_False, ih2, hl, if_false, valueOf,
          h52, Bool.false_eq_true]

/-- Nothing in the first part of a list passes the filter: the filter keeps what it keeps of
the second part. -/
theorem filter_append_of_none {α : Type} (p : α → Bool) (xs ys : List α)
    (h : ∀ x ∈ xs, p x = false) : (xs ++ ys).filter p = ys.filter p := by
  induction xs with
  | nil => rfl
  | cons x xs ih =>
    have hx : p x = false := h x (List.mem_cons_self _ _)
    simp only [List.cons_append, List.filter_cons, hx, Bool.false_eq_true, if_false]
    exact ih (fun y hy => h y (List.mem_cons_of_mem _ hy))

/-- Samples rendered by a started process for `http_requests_total` with given labels. -/
theorem samplesFor_stateWith (lib : Library)
    (hnew : counterName ∉ bundleNames lib.defaultMetrics) (hm : List (LabelTuple × Nat))
    (hkeys : ∀ kv ∈ hm, kv.1 = tuple200 ∨ kv.1 = tuple500)
    (hnd : (hm.map Prod.fst).Nodup) (host : HostRuntime) (labels : Labels) :
    (stateWith lib hm).samplesFor host labels =
      sampleList labels
        (if labels = labels200 then valueOf hm tuple200
          else if labels = labels500 then valueOf hm tuple500 else none) := by
  rw [← filter_samples_counterWith hm hkeys hnd labels]
  unfold AppState.samplesFor stateWith
  simp only
  rw [renderSamples_append, filter_append_of_none]
  · simp [renderSamples, Metric.samples, counterWith]
  · intro x hx
    have := renderSamples_bundle_name host lib.defaultMetrics x hx
    have hne : x.name ≠ counterName := fun e => hnew (e ▸ this)
    simp [hne]

/-! ## Reachable states -/

/-- Every state reached from a successful startup is a started state whose mapping has
distinct keys and holds exactly the request counts of the two routes. -/
theorem reachable (lib : Library) (s0 : AppState) (h : startup lib = .ok s0)
    (es : List Inbound) :
    counterName ∉ bundleNames lib.defaultMetrics ∧
      ∃ hm, run s0 es = stateWith lib hm ∧
        (∀ kv ∈ hm, kv.1 = tuple200 ∨ kv.1 = tuple500) ∧
        (hm.map Prod.fst).Nodup ∧
        valueOf hm tuple200 = countValue (countReq .getRoot es) ∧
        valueOf hm tuple500 = countValue (countReq .getError es) := by
  obtain ⟨⟨_, hnew⟩, rfl⟩ := (startup_eq_ok lib s0).1 h
  refine ⟨hnew, effects [] es, run_stateWith lib es [], ?_, ?_, ?_, ?_⟩
  · exact keys_effects es [] (by simp)
  · exact nodup_keys_effects es [] (by simp)
  · rw [valueOf_effects, countTuple_200]
    simp [addCount, countValue, valueOf]
  · rw [valueOf_effects, countTuple_500]
    simp [addCount, countValue, valueOf]

/-- Values rendered in a state reached from a successful startup. -/
theorem rendered_reachable (lib : Library) (s0 : AppState) (h : startup lib = .ok s0)
    (es : List Inbound) (host : HostRuntime) (labels : Labels) :
    (run s0 es).rendered host labels =
      if labels = labels200 then countValue (countReq .getRoot es)
      else if labels = labels500 then countValue (countReq .getError es) else none := by
  obtain ⟨hnew, hm, hrun, hkeys, _, h200, h500⟩ := reachable lib s0 h es
  rw [hrun, rendered_stateWith lib hnew hm hkeys, h200, h500]

/-- Samples rendered for the counter in a state reached from a successful startup: for given
labels, one sample with the rendered value, or none when no value is rendered. -/
theorem samplesFor_reachable (lib : Library) (s0 : AppState) (h : startup lib = .ok s0)
    (es : List Inbound) (host : HostRuntime) (labels : Labels) :
    (run s0 es).samplesFor host labels =
      sampleList labels ((run s0 es).rendered host labels) := by
  rw [rendered_reachable lib s0 h es host labels]
  obtain ⟨hnew, hm, hrun, hkeys, hnd, h200, h500⟩ := reachable lib s0 h es
  rw [hrun, samplesFor_stateWith lib hnew hm hkeys hnd, h200, h500]

/-- Serialisation of two sequences of lines one after the other. -/
theorem unlines_append (xs ys : List String) : unlines (xs ++ ys) = unlines xs ++ unlines ys := by
  induction xs with
  | nil => simp [unlines]
  | cons x xs ih => simp [unlines, ih, String.append_assoc]

/-- The body of `GET /metrics` is the serialisation of the lines of the state. -/
theorem body_metrics (s : AppState) (host : HostRuntime) :
    (handle s ⟨.getMetrics, host⟩).2.body = unlines (s.lines host) := rfl

/-- A line of a sequence splits the sequence around it. -/
theorem split_of_mem (l : String) (ls : List String) (h : l ∈ ls) :
    ∃ before after, ls = before ++ l :: after := by
  obtain ⟨a, b, hab⟩ := List.append_of_mem h
  exact ⟨a, b, hab⟩

/-- A sequence made of requests to one route has as many requests to that route as it is
long. -/
theorem countReq_eq_length (r : Request) (es : List Inbound)
    (h : ∀ e ∈ es, e.request = r) : countReq r es = es.length := by
  unfold countReq
  rw [List.countP_eq_length]
  intro e he
  simp [h e he]

/-! ## Claims -/

set_option maxRecDepth 8192

/-- C1, as stated, fails for N = 0: in the freshly initialised state, after a sequence of zero
requests to `/`, the rendering has no sample for `{method="GET",status="200"}`, so no value 0
is rendered for it and the line `http_requests_total{method="GET",status="200"} 0` is not in
the body of `/metrics`. -/
theorem C1_no_sample_after_zero_requests :
    ∃ s0, startup sampleLibrary = .ok s0 ∧
      (run s0 (requests .getRoot 0)).samplesFor hostA labels200 = [] ∧
      (run s0 (requests .getRoot 0)).rendered hostA labels200 ≠ some 0 ∧
      line200 0 ∉ (run s0 (requests .getRoot 0)).lines hostA := by
  refine ⟨_, rfl, ?_, ?_, ?_⟩ <;> decide

/-- C1, amended: from the freshly initialised state, after any sequence of requests of which
N go to `/`, the rendering has for `{method="GET",status="200"}` no sample when N = 0 and
exactly one sample, with the value N, when N ≥ 1, and then the body of `/metrics` has the
sample line `http_requests_total{method="GET",status="200"} N`. -/
theorem C1_root_requests_rendered (lib : Library) (s0 : AppState) (h : startup lib = .ok s0)
    (es : List Inbound) (N : Nat) (hN : countReq .getRoot es = N) (host : HostRuntime) :
    (run s0 es).rendered host labels200 = (if N = 0 then none else some N) ∧
      (run s0 es).samplesFor host labels200 =
        (if N = 0 then [] else [⟨counterName, labels200, N⟩]) ∧
      (1 ≤ N → ∃ before after, (handle (run s0 es) ⟨.getMetrics, host⟩).2.body =
        unlines (before ++ line200 N :: after)) := by
  subst hN
  have hr := rendered_reachable lib s0 h es host labels200
  simp only [if_true, countValue] at hr
  refine ⟨hr, ?_, fun hpos => ?_⟩
  · rw [samplesFor_reachable lib s0 h es host labels200, hr]
    split_ifs <;> rfl
  · have hne : countReq .getRoot es ≠ 0 := by omega
    obtain ⟨_, hm, hrun, _, _, h200, _⟩ := reachable lib s0 h es
    simp only [countValue, hne, if_false] at h200
    have hmem := line200_mem lib hm host _ h200
    obtain ⟨a, b, hab⟩ := split_of_mem _ _ hmem
    exact ⟨a, b, by rw [body_metrics, hrun, hab]⟩

/-- Witness of C1 amended: five requests to `/` on the sample library render the value 5. -/
theorem C1_root_requests_rendered_witness :
    ∃ s0, startup sampleLibrary = .ok s0 ∧ countReq .getRoot (requests .getRoot 5) = 5 ∧
      (run s0 (requests .getRoot 5)).rendered hostB labels200 = some 5 :=
  ⟨_, rfl, by decide,
    (C1_root_requests_rendered sampleLibrary _ rfl (requests .getRoot 5) 5 (by decide) hostB).1⟩

/-- C2, as stated, fails for M = 0: in the freshly initialised state, after a sequence of zero
requests to `/error`, the rendering has no sample for `{method="GET",status="500"}`, so no
value 0 is rendered for it and the line `http_requests_total{method="GET",status="500"} 0` is
not in the body of `/metrics`. -/
theorem C2_no_sample_after_zero_requests :
    ∃ s0, startup sampleLibrary = .ok s0 ∧
      (run s0 (requests .getError 0)).samplesFor hostA labels500 = [] ∧
      (run s0 (requests .getError 0)).rendered hostA labels500 ≠ some 0 ∧
      line500 0 ∉ (run s0 (requests .getError 0)).lines hostA := by
  refine ⟨_, rfl, ?_, ?_, ?_⟩ <;> decide

/-- C2, amended: from the freshly initialised state, after any sequence of requests of which
M go to `/error`, the rendering has for `{method="GET",status="500"}` no sample when M = 0
and exactly one sample, with the value M, when M ≥ 1, and then the body of `/metrics` has the
sample line `http_requests_total{method="GET",status="500"} M`. -/
theorem C2_error_requests_rendered (lib : Library) (s0 : AppState) (h : startup lib = .ok s0)
    (es : List Inbound) (M : Nat) (hM : countReq .getError es = M) (host : HostRuntime) :
    (run s0 es).rendered host labels500 = (if M = 0 then none else some M) ∧
      (run s0 es).samplesFor host labels500 =
        (if M = 0 then [] else [⟨counterName, labels500, M⟩]) ∧
      (1 ≤ M → ∃ before after, (handle (run s0 es) ⟨.getMetrics, host⟩).2.body =
        unlines (before ++ line500 M :: after)) := by
  subst hM
  have hr := rendered_reachable lib s0 h es host labels500
  have h52 : ¬ labels500 = labels200 := by decide
  simp only [h52, if_false, if_true, countValue] at hr
  refine ⟨hr, ?_, fun hpos => ?_⟩
  · rw [samplesFor_reachable lib s0 h es host labels500, hr]
    split_ifs <;> rfl
  · have hne : countReq .getError es ≠ 0 := by omega
    obtain ⟨_, hm, hrun, _, _, _, h500⟩ := reachable lib s0 h es
    simp only [countValue, hne, if_false] at h500
    have hmem := line500_mem lib hm host _ h500
    obtain ⟨a, b, hab⟩ := split_of_mem _ _ hmem
    exact ⟨a, b, by rw [body_metrics, hrun, hab]⟩

/-- Witness of C2 amended: four requests to `/error` on the sample library render the
value 4. -/
theorem C2_error_requests_rendered_witness :
    ∃ s0, startup sampleLibrary = .ok s0 ∧ countReq .getError (requests .getError 4) = 4 ∧
      (run s0 (requests .getError 4)).rendered hostB labels500 = some 4 :=
  ⟨_, rfl, by decide,
    (C2_error_requests_rendered sampleLibrary _ rfl (requests .getError 4) 4 (by decide)
      hostB).1⟩

/-- C3: after a successful startup and requests of which three go to `/` and one to `/error`,
in any order, the body of `/metrics` has the line
`http_requests_total{method="GET",status="200"} 3` and the line
`http_requests_total{method="GET",status="500"} 1`; the rendering has exactly one sample for
each of the two label tuples, with the values 3 and 1, and no sample of the counter for any
other labels. -/
theorem C3_scenario_three_ok_one_error (lib : Library) (s0 : AppState)
    (h : startup lib = .ok s0) (es : List Inbound) (h3 : countReq .getRoot es = 3)
    (h1 : countReq .getError es = 1) (host : HostRuntime) :
    (∃ before after, (handle (run s0 es) ⟨.getMetrics, host⟩).2.body =
        unlines (before ++
          "http_requests_total\x7bmethod=\"GET\",status=\"200\"\x7d 3" :: after)) ∧
      (∃ before after, (handle (run s0 es) ⟨.getMetrics, host⟩).2.body =
        unlines (before ++
          "http_requests_total\x7bmethod=\"GET\",status=\"500\"\x7d 1" :: after)) ∧
      (run s0 es).samplesFor host labels200 = [⟨counterName, labels200, 3⟩] ∧
      (run s0 es).samplesFor host labels500 = [⟨counterName, labels500, 1⟩] ∧
      ∀ labels, labels ≠ labels200 → labels ≠ labels500 →
        (run s0 es).samplesFor host labels = [] := by
  obtain ⟨_, hm, hrun, _, _, h200, h500⟩ := reachable lib s0 h es
  rw [h3] at h200
  rw [h1] at h500
  have hr := rendered_reachable lib s0 h es host
  have hs := samplesFor_reachable lib s0 h es host
  refine ⟨?_, ?_, ?_, ?_, ?_⟩
  · obtain ⟨a, b, hab⟩ := split_of_mem _ _ (line200_mem lib hm host 3 h200)
    exact ⟨a, b, by rw [body_metrics, hrun, hab]; rfl⟩
  · obtain ⟨a, b, hab⟩ := split_of_mem _ _ (line500_mem lib hm host 1 h500)
    exact ⟨a, b, by rw [body_metrics, hrun, hab]; rfl⟩
  · rw [hs, hr, h3]; rfl
  · rw [hs, hr, h1]; rfl
  · intro labels hn2 hn5
    rw [hs, hr]
    simp [hn2, hn5, sampleList]

/-- Witness of C3: the scenario on the sample library. -/
theorem C3_scenario_three_ok_one_error_witness :
    ∃ s0, startup sampleLibrary = .ok s0 ∧ countReq .getRoot scenario = 3 ∧
      countReq .getError scenario = 1 ∧
      (run s0 scenario).samplesFor hostB labels200 = [⟨counterName, labels200, 3⟩] ∧
      (run s0 scenario).samplesFor hostB labels500 = [⟨counterName, labels500, 1⟩] :=
  ⟨_, rfl, by decide, by decide,
    (C3_scenario_three_ok_one_error sampleLibrary _ rfl scenario (by decide) (by decide)
      hostB).2.2.1,
    (C3_scenario_three_ok_one_error sampleLibrary _ rfl scenario (by decide) (by decide)
      hostB).2.2.2.1⟩

/-- A sample line of `{method="GET",status="500"}` is no sample line of
`{method="GET",status="200"}`. -/
theorem line500_ne_line200 (v w : Nat) : line500 v ≠ line200 w := by
  intro h
  have h2 := congrArg String.data h
  simp [line500, line200, String.data_append] at h2

/-- A sample line of `{method="GET",status="500"}` is not the `# HELP` line. -/
theorem line500_ne_help (v : Nat) :
    line500 v ≠ "# HELP http_requests_total Total HTTP requests" := by
  intro h
  have h2 := congrArg String.data h
  simp [line500, String.data_append] at h2

/-- A sample line of `{method="GET",status="500"}` is not the `# TYPE` line. -/
theorem line500_ne_type (v : Nat) : line500 v ≠ "# TYPE http_requests_total counter" := by
  intro h
  have h2 := congrArg String.data h
  simp [line500, String.data_append] at h2

/-- A sample line of `{method="GET",status="200"}` is not the `# HELP` line. -/
theorem line200_ne_help (v : Nat) :
    line200 v ≠ "# HELP http_requests_total Total HTTP requests" := by
  intro h
  have h2 := congrArg String.data h
  simp [line200, String.data_append] at h2

/-- A sample line of `{method="GET",status="200"}` is not the `# TYPE` line. -/
theorem line200_ne_type (v : Nat) : line200 v ≠ "# TYPE http_requests_total counter" := by
  intro h
  have h2 := congrArg String.data h
  simp [line200, String.data_append] at h2

/-- A tuple without a value is no key of the mapping. -/
theorem key_ne_of_valueOf_none (hm : List (LabelTuple × Nat)) (t : LabelTuple)
    (h : valueOf hm t = none) : ∀ kv ∈ hm, kv.1 ≠ t := by
  induction hm with
  | nil => intro kv hkv; simp at hkv
  | cons x rest ih =>
    obtain ⟨k, w⟩ := x
    by_cases hk : k = t
    · simp [valueOf, hk] at h
    · simp only [valueOf, hk, if_false] at h
      intro kv hkv
      rcases List.mem_cons.1 hkv with rfl | hmem
      · exact hk
      · exact ih h kv hmem

/-- Every line of the block of the counter is its `# HELP` line, its `# TYPE` line or the
sample line of an entry of the mapping. -/
theorem mem_counterBlock (hm : List (LabelTuple × Nat))
    (hkeys : ∀ kv ∈ hm, kv.1 = tuple200 ∨ kv.1 = tuple500) (l : String)
    (hl : l ∈ counterBlock hm) :
    l = "# HELP http_requests_total Total HTTP requests" ∨
      l = "# TYPE http_requests_total counter" ∨
      (∃ v, (tuple200, v) ∈ hm ∧ l = line200 v) ∨ (∃ v, (tuple500, v) ∈ hm ∧ l = line500 v) := by
  simp only [counterBlock, List.mem_cons] at hl
  rcases hl with hl | hl | hl
  · exact Or.inl hl
  · exact Or.inr (Or.inl hl)
  · right; right
    simp only [Counter.samples, counterWith, List.map_map, List.mem_map] at hl
    obtain ⟨⟨k, v⟩, hkv, hfmt⟩ := hl
    rcases hkeys (k, v) hkv with hk | hk
    · simp only at hk
      subst hk
      exact Or.inl ⟨v, hkv, hfmt.symm.trans (formatSample_200 v)⟩
    · simp only at hk
      subst hk
      exact Or.inr ⟨v, hkv, hfmt.symm.trans (formatSample_500 v)⟩

/-- Without a value for the tuple of `GET /error`, no line of the block is one of its sample
lines. -/
theorem line500_not_mem (hm : List (LabelTuple × Nat))
    (hkeys : ∀ kv ∈ hm, kv.1 = tuple200 ∨ kv.1 = tuple500) (h : valueOf hm tuple500 = none)
    (v : Nat) : line500 v ∉ counterBlock hm := by
  intro hl
  rcases mem_counterBlock hm hkeys _ hl with e | e | ⟨w, _, e⟩ | ⟨w, hw, _⟩
  · exact line500_ne_help v e
  · exact line500_ne_type v e
  · exact line500_ne_line200 v w e
  · exact key_ne_of_valueOf_none hm tuple500 h _ hw rfl

/-- Without a value for the tuple of `GET /`, no line of the block is one of its sample
lines. -/
theorem line200_not_mem (hm : List (LabelTuple × Nat))
    (hkeys : ∀ kv ∈ hm, kv.1 = tuple200 ∨ kv.1 = tuple500) (h : valueOf hm tuple200 = none)
    (v : Nat) : line200 v ∉ counterBlock hm := by
  intro hl
  rcases mem_counterBlock hm hkeys _ hl with e | e | ⟨w, hw, _⟩ | ⟨w, _, e⟩
  · exact line200_ne_help v e
  · exact line200_ne_type v e
  · exact key_ne_of_valueOf_none hm tuple200 h _ hw rfl
  · exact line500_ne_line200 w v e.symm

/-- Serving a sequence of requests and then another. -/
theorem run_append (es fs : List Inbound) : ∀ s, run s (es ++ fs) = run (run s es) fs := by
  induction es with
  | nil => intro s; rfl
  | cons e es ih => intro s; exact ih (handle s e).1

/-- One more request adds at most one to the number of requests of a kind. -/
theorem countReq_snoc (r : Request) (es : List Inbound) (e : Inbound) :
    countReq r (es ++ [e]) = countReq r es ∨ countReq r (es ++ [e]) = countReq r es + 1 := by
  unfold countReq
  rw [List.countP_append]
  by_cases h : e.request = r
  · right; simp [List.countP_cons, h]
  · left; simp [List.countP_cons, h]

/-- C4: in every state reached from a successful startup, a label tuple of
`http_requests_total` that was never incremented has no sample in the rendering: none for
`{method="GET",status="500"}` before any request to `/error`, none for
`{method="GET",status="200"}` before any request to `/`, never one for any other labels, and
never a sample with value 0.  A tuple that is absent is, after one more request, still absent
or present with value 1.  In the body of `/metrics` the block of the counter then has no
sample line of the tuple, whatever the value. -/
theorem C4_unseen_tuples_absent (lib : Library) (s0 : AppState) (h : startup lib = .ok s0)
    (es : List Inbound) (host : HostRuntime) :
    (countReq .getError es = 0 → (run s0 es).samplesFor host labels500 = []) ∧
      (countReq .getRoot es = 0 → (run s0 es).samplesFor host labels200 = []) ∧
      (∀ labels, labels ≠ labels200 → labels ≠ labels500 →
        (run s0 es).samplesFor host labels = []) ∧
      (∀ labels, ∀ x ∈ (run s0 es).samplesFor host labels, x.value ≠ 0) ∧
      (∀ e host1 labels, (run s0 es).samplesFor host labels = [] →
        (handle (run s0 es) e).1.samplesFor host1 labels = [] ∨
          (handle (run s0 es) e).1.samplesFor host1 labels = [⟨counterName, labels, 1⟩]) ∧
      (∃ block, (run s0 es).lines host =
          renderLines host (lib.defaultMetrics.map Metric.runtime) ++ block ∧
        (countReq .getError es = 0 → ∀ v, line500 v ∉ block) ∧
        (countReq .getRoot es = 0 → ∀ v, line200 v ∉ block)) := by
  have hr := rendered_reachable lib s0 h es host
  have hs := samplesFor_reachable lib s0 h es host
  have h52 : ¬ labels500 = labels200 := by decide
  refine ⟨?_, ?_, ?_, ?_, ?_, ?_⟩
  · intro h0
    rw [hs, hr]
    simp [h52, h0, countValue, sampleList]
  · intro h0
    rw [hs, hr]
    simp [h0, countValue, sampleList]
  · intro labels hn2 hn5
    rw [hs, hr]
    simp [hn2, hn5, sampleList]
  · intro labels x hx
    rw [hs, hr] at hx
    unfold countValue at hx
    split_ifs at hx <;> simp_all [sampleList]
  · intro e host1 labels hnone
    have hstep : (handle (run s0 es) e).1 = run s0 (es ++ [e]) := by
      rw [run_append]; rfl
    rw [hstep, samplesFor_reachable lib s0 h (es ++ [e]) host1,
      rendered_reachable lib s0 h (es ++ [e]) host1]
    rw [hs, hr] at hnone
    by_cases hl2 : labels = labels200
    · simp only [hl2, if_true, countValue] at hnone ⊢
      have h0 : countReq .getRoot es = 0 := by
        by_contra hne
        simp [hne, sampleList] at hnone
      rcases countReq_snoc .getRoot es e with hc | hc <;> rw [hc, h0] <;> simp [sampleList]
    · by_cases hl5 : labels = labels500
      · simp only [hl5, h52, if_false, if_true, countValue] at hnone ⊢
        have h0 : countReq .getError es = 0 := by
          by_contra hne
          simp [hne, sampleList] at hnone
        rcases countReq_snoc .getError es e with hc | hc <;> rw [hc, h0] <;> simp [sampleList]
      · simp [hl2, hl5, sampleList]
  · obtain ⟨_, hm, hrun, hkeys, _, h200, h500⟩ := reachable lib s0 h es
    refine ⟨counterBlock hm, ?_, ?_, ?_⟩
    · rw [hrun, lines_stateWith]; rfl
    · intro h0 v
      rw [h0] at h500
      exact line500_not_mem hm hkeys h500 v
    · intro h0 v
      rw [h0] at h200
      exact line200_not_mem hm hkeys h200 v

/-- Witness of C4: on the sample library, after two requests to `/` and none to `/error`, no
sample of `{method="GET",status="500"}` is rendered. -/
theorem C4_unseen_tuples_absent_witness :
    ∃ s0, startup sampleLibrary = .ok s0 ∧ countReq .getError (requests .getRoot 2) = 0 ∧
      (run s0 (requests .getRoot 2)).samplesFor hostA labels500 = [] :=
  ⟨_, rfl, by decide,
    (C4_unseen_tuples_absent sampleLibrary _ rfl (requests .getRoot 2) hostA).1 (by decide)⟩

/-- Two readings that agree on the quantities behind a default bundle give the same lines for
the bundle. -/
theorem renderLines_bundle_congr (h1 h2 : HostRuntime) (ds : List DefaultMetric)
    (hread : ∀ d ∈ ds, h1.read d.source = h2.read d.source) :
    renderLines h1 (ds.map Metric.runtime) = renderLines h2 (ds.map Metric.runtime) := by
  induction ds with
  | nil => rfl
  | cons d ds ih =>
    have hd := hread d (List.mem_cons_self _ _)
    have ih2 := ih (fun x hx => hread x (List.mem_cons_of_mem _ hx))
    simp only [List.map_cons, renderLines, Metric.render, Metric.samples, hd, ih2]

/-- C5, as stated, fails: on the sample library, two calls of `/metrics` in the freshly
initialised state with no increment in between, served at the readings `hostA` and `hostB` of
the host runtime, return different bodies (the first call leaves the state as it was). -/
theorem C5_render_twice_differs :
    ∃ s0, startup sampleLibrary = .ok s0 ∧
      (handle s0 ⟨.getMetrics, hostA⟩).1 = s0 ∧
      s0.register.metrics hostA ≠ s0.register.metrics hostB ∧
      (handle s0 ⟨.getMetrics, hostA⟩).2.body ≠
        (handle (handle s0 ⟨.getMetrics, hostA⟩).1 ⟨.getMetrics, hostB⟩).2.body := by
  refine ⟨_, rfl, ?_, ?_, ?_⟩ <;> decide

/-- C5, amended: in every state reached from a successful startup, two calls of `/metrics`
with no increment in between return byte-identical bodies when the readings of the host
runtime agree on the quantities behind the default metrics; whatever the readings, the two
bodies are the blocks of the default metrics followed by one and the same text for
`http_requests_total`, and the values rendered for the counter are the same. -/
theorem C5_render_twice (lib : Library) (s0 : AppState) (h : startup lib = .ok s0)
    (es : List Inbound) (h1 h2 : HostRuntime) :
    ((∀ d ∈ lib.defaultMetrics, h1.read d.source = h2.read d.source) →
        (handle (run s0 es) ⟨.getMetrics, h1⟩).2.body =
          (handle (handle (run s0 es) ⟨.getMetrics, h1⟩).1 ⟨.getMetrics, h2⟩).2.body) ∧
      (∃ block,
        (handle (run s0 es) ⟨.getMetrics, h1⟩).2.body =
          unlines (renderLines h1 (lib.defaultMetrics.map Metric.runtime)) ++ block ∧
        (handle (handle (run s0 es) ⟨.getMetrics, h1⟩).1 ⟨.getMetrics, h2⟩).2.body =
          unlines (renderLines h2 (lib.defaultMetrics.map Metric.runtime)) ++ block) ∧
      (∀ labels, (run s0 es).rendered h1 labels =
        (handle (run s0 es) ⟨.getMetrics, h1⟩).1.rendered h2 labels) := by
  have hsame : (handle (run s0 es) ⟨.getMetrics, h1⟩).1 = run s0 es := rfl
  obtain ⟨_, hm, hrun, _, _, _, _⟩ := reachable lib s0 h es
  have hb : ∀ host, (handle (run s0 es) ⟨.getMetrics, host⟩).2.body =
      unlines (renderLines host (lib.defaultMetrics.map Metric.runtime)) ++
        unlines (counterBlock hm) := by
    intro host
    rw [body_metrics, hrun, lines_stateWith, unlines_append]
    rfl
  refine ⟨?_, ?_, ?_⟩
  · intro hread
    rw [hsame, hb h1, hb h2, renderLines_bundle_congr h1 h2 _ hread]
  · exact ⟨unlines (counterBlock hm), hb h1, by rw [hsame]; exact hb h2⟩
  · intro labels
    rw [hsame, rendered_reachable lib s0 h es h1, rendered_reachable lib s0 h es h2]

/-- Witness of C5 amended: on the sample library, after the scenario, two calls at the same
reading return the same body. -/
theorem C5_render_twice_witness :
    ∃ s0, startup sampleLibrary = .ok s0 ∧
      (handle (run s0 scenario) ⟨.getMetrics, hostA⟩).2.body =
        (handle (handle (run s0 scenario) ⟨.getMetrics, hostA⟩).1 ⟨.getMetrics, hostA⟩).2.body :=
  ⟨_, rfl, (C5_render_twice sampleLibrary _ rfl scenario hostA hostA).1 (fun _ _ => rfl)⟩

/-- C6: in every state in which the counter is registered with the label names of
lines 11-15, whatever values it holds, `GET /` is answered with status 200 and body `OK` and
`GET /error` with status 500 and body `ERROR`. -/
theorem C6_fixed_responses (s : AppState) (hs : s.CounterDeclared) (host : HostRuntime) :
    (handle s ⟨.getRoot, host⟩).2.statusCode = 200 ∧
      (handle s ⟨.getRoot, host⟩).2.body = "OK" ∧
      (handle s ⟨.getError, host⟩).2.statusCode = 500 ∧
      (handle s ⟨.getError, host⟩).2.body = "ERROR" := by
  obtain ⟨c, hfind, hnames⟩ := Option.map_eq_some'.1 hs
  have hinc : ∀ status, ∃ s1,
      s.httpCounterInc [("method", "GET"), ("status", status)] = .ok s1 := by
    intro status
    obtain ⟨c1, hc1⟩ := inc_declared c hnames status
    obtain ⟨ms1, hms1⟩ := incNamed_ok_of_find counterName _ _ c c1 hfind hc1
    exact ⟨⟨⟨s.register.contentType, ms1⟩⟩, by simp only [AppState.httpCounterInc, hms1]⟩
  obtain ⟨a, ha⟩ := hinc "200"
  obtain ⟨b, hb⟩ := hinc "500"
  simp only [handle, handleRoot, handleError, ha, hb]
  exact ⟨rfl, rfl, rfl, rfl⟩

/-- Witness of C6: a started process whose counter holds the values 41 and 7. -/
theorem C6_fixed_responses_witness :
    (stateWith sampleLibrary [(tuple200, 41), (tuple500, 7)]).CounterDeclared ∧
      (handle (stateWith sampleLibrary [(tuple200, 41), (tuple500, 7)])
        ⟨.getRoot, hostA⟩).2.body = "OK" ∧
      (handle (stateWith sampleLibrary [(tuple200, 41), (tuple500, 7)])
        ⟨.getError, hostA⟩).2.statusCode = 500 :=
  ⟨by decide, (C6_fixed_responses _ (by decide) hostA).2.1,
    (C6_fixed_responses _ (by decide) hostA).2.2.1⟩

/-- C7: a request to `/metrics` leaves the process state as it was: every label tuple of
`http_requests_total` has the same value, or the same absence, after it as before it, and
what a later scrape renders for the counter is unchanged. -/
theorem C7_metrics_no_side_effect (s : AppState) (host : HostRuntime) :
    (handle s ⟨.getMetrics, host⟩).1 = s ∧
      (∀ t, (handle s ⟨.getMetrics, host⟩).1.httpValue t = s.httpValue t) ∧
      (∀ host1 labels, (handle s ⟨.getMetrics, host⟩).1.rendered host1 labels =
        s.rendered host1 labels) :=
  ⟨rfl, fun _ => rfl, fun _ _ => rfl⟩

/-- C8: in every state, a request to `/metrics` is answered with status 200, with the header
`Content-Type` set to the media type declared by the registry, and with the rendering of the
registry, taken at the time of the request, as body. -/
theorem C8_metrics_response (s : AppState) (host : HostRuntime) :
    (handle s ⟨.getMetrics, host⟩).2.statusCode = 200 ∧
      (handle s ⟨.getMetrics, host⟩).2.headers.lookup "Content-Type" =
        some s.register.contentType ∧
      (handle s ⟨.getMetrics, host⟩).2.body = s.register.metrics host := by
  refine ⟨rfl, ?_, rfl⟩
  simp [handle, handleMetrics, Response.set, Response.end, Response.fresh, List.lookup]

/-- Names registered in a started process. -/
theorem names_stateWith (lib : Library) (hm : List (LabelTuple × Nat)) :
    (stateWith lib hm).register.names = bundleNames lib.defaultMetrics ++ [counterName] := by
  simp [stateWith, Registry.names, bundleNames, Metric.name, newHttpCounter, counterName,
    Function.comp_def]

/-- C9: registering a metric whose name is already registered fails with `DuplicateNameError`
and returns the registry as it was; a registration, failed or not, keeps the registered names
distinct; startup succeeds, with `http_requests_total` registered once after the default
bundle, when the bundle has distinct names other than `http_requests_total`; and in every
state reached from a successful startup the names are distinct and registering another
counter named `http_requests_total` fails and changes nothing. -/
theorem C9_duplicate_registration :
    (∀ (r : Registry) (m : Metric), m.name ∈ r.names →
        r.registerMetric m = (.error .DuplicateNameError, r)) ∧
      (∀ (r : Registry) (m : Metric), r.names.Nodup → (r.registerMetric m).2.names.Nodup) ∧
      (∀ lib : Library, (bundleNames lib.defaultMetrics).Nodup →
        counterName ∉ bundleNames lib.defaultMetrics →
          ∃ s0, startup lib = .ok s0 ∧
            s0.register.names = bundleNames lib.defaultMetrics ++ [counterName]) ∧
      (∀ (lib : Library) (s0 : AppState) (es : List Inbound), startup lib = .ok s0 →
        (run s0 es).register.names.Nodup ∧
          ∀ c : Counter, c.name = counterName →
            (run s0 es).register.registerMetric (.counter c) =
              (.error .DuplicateNameError, (run s0 es).register)) := by
  have hdup : ∀ (r : Registry) (m : Metric), m.name ∈ r.names →
      r.registerMetric m = (.error .DuplicateNameError, r) := by
    intro r m hmem
    simp [Registry.registerMetric, hmem]
  refine ⟨hdup, ?_, ?_, ?_⟩
  · intro r m hnd
    by_cases hmem : m.name ∈ r.names
    · rw [hdup r m hmem]; exact hnd
    · have hreg : r.registerMetric m = (.ok (), { r with collection := r.collection ++ [m] }) := by
        simp [Registry.registerMetric, hmem]
      rw [hreg]
      simp only [Registry.names, List.map_append, List.map_cons, List.map_nil]
      rw [List.nodup_append]
      refine ⟨hnd, List.nodup_singleton _, ?_⟩
      intro a ha hb
      rw [List.mem_singleton] at hb
      subst hb
      exact hmem ha
  · intro lib hnd hnew
    exact ⟨stateWith lib [], (startup_eq_ok lib _).2 ⟨⟨hnd, hnew⟩, rfl⟩, names_stateWith lib []⟩
  · intro lib s0 es hstart
    obtain ⟨⟨hnd, hnew⟩, rfl⟩ := (startup_eq_ok lib s0).1 hstart
    rw [run_stateWith]
    refine ⟨?_, ?_⟩
    · rw [names_stateWith, List.nodup_append]
      refine ⟨hnd, List.nodup_singleton _, ?_⟩
      intro a ha hb
      rw [List.mem_singleton] at hb
      subst hb
      exact hnew ha
    · intro c hc
      apply hdup
      rw [names_stateWith]
      simp [Metric.name, hc]

/-- Witness of C9: the sample library starts, and a second counter named
`http_requests_total` is refused after the scenario without changing the registry. -/
theorem C9_duplicate_registration_witness :
    ∃ s0, startup sampleLibrary = .ok s0 ∧
      (run s0 scenario).register.registerMetric (.counter newHttpCounter) =
        (.error .DuplicateNameError, (run s0 scenario).register) :=
  ⟨_, rfl, (C9_duplicate_registration.2.2.2 sampleLibrary _ scenario rfl).2 newHttpCounter rfl⟩

/-- The value of a number of increments grows with the number. -/
theorem countValue_mono (a b : Nat) (hab : a ≤ b) (w : Nat) (h : countValue a = some w) :
    ∃ w1, countValue b = some w1 ∧ w ≤ w1 := by
  unfold countValue at h ⊢
  by_cases ha : a = 0
  · simp [ha] at h
  · have hb : b ≠ 0 := by omega
    simp only [ha, if_false, Option.some.injEq] at h
    simp only [hb, if_false]
    exact ⟨b, rfl, by omega⟩

/-- One more request does not lower the number of requests of a kind. -/
theorem countReq_le_snoc (r : Request) (es : List Inbound) (e : Inbound) :
    countReq r es ≤ countReq r (es ++ [e]) := by
  rcases countReq_snoc r es e with h | h <;> omega

/-- C10: in every state, a label tuple of `http_requests_total` that has a value keeps a
value at least as large after any one request (`GET /`, `GET /error` or `GET /metrics`) and
after any sequence of requests, so it is never removed; and in every state reached from a
successful startup, a value rendered for the counter is, after one more request, rendered at
least as large. -/
theorem C10_counter_monotone :
    (∀ (s : AppState) (e : Inbound) (t : LabelTuple) (v : Nat), s.httpValue t = some v →
        ∃ w, (handle s e).1.httpValue t = some w ∧ v ≤ w) ∧
      (∀ (s : AppState) (es : List Inbound) (t : LabelTuple) (v : Nat),
        s.httpValue t = some v → ∃ w, (run s es).httpValue t = some w ∧ v ≤ w) ∧
      (∀ (lib : Library) (s0 : AppState) (es : List Inbound) (e : Inbound)
        (host host1 : HostRuntime) (labels : Labels) (v : Nat), startup lib = .ok s0 →
          (run s0 es).rendered host labels = some v →
            ∃ w, (handle (run s0 es) e).1.rendered host1 labels = some w ∧ v ≤ w) := by
  refine ⟨fun s e t v h => httpValue_handle s e t v h,
    fun s es t v h => httpValue_run es t s v h, ?_⟩
  intro lib s0 es e host host1 labels v hstart hv
  have hstep : (handle (run s0 es) e).1 = run s0 (es ++ [e]) := by
    rw [run_append]; rfl
  rw [hstep, rendered_reachable lib s0 hstart (es ++ [e]) host1]
  rw [rendered_reachable lib s0 hstart es host] at hv
  by_cases hl2 : labels = labels200
  · simp only [hl2, if_true] at hv ⊢
    exact countValue_mono _ _ (countReq_le_snoc _ es e) v hv
  · by_cases hl5 : labels = labels500
    · have h52 : ¬ labels500 = labels200 := by decide
      simp only [hl5, h52, if_false, if_true] at hv ⊢
      exact countValue_mono _ _ (countReq_le_snoc _ es e) v hv
    · simp [hl2, hl5] at hv

/-- Witness of C10: a started process whose counter holds 3 for the tuple of `GET /` holds 4
after one more request to `/`. -/
theorem C10_counter_monotone_witness :
    (stateWith sampleLibrary [(tuple200, 3)]).httpValue tuple200 = some 3 ∧
      ∃ w, (handle (stateWith sampleLibrary [(tuple200, 3)]) ⟨.getRoot, hostA⟩).1.httpValue
        tuple200 = some w ∧ 3 ≤ w :=
  ⟨by decide, C10_counter_monotone.1 _ ⟨.getRoot, hostA⟩ tuple200 3 (by decide)⟩

end DemoMetrics
